import Mathlib

/-!
Shallow embedding of the classroom-assignment portal in `src/app.py`
(Flask + SQLAlchemy + local file storage).

The persistence store is modelled as lists of records (one list per table),
the blob store as the list of filenames present in the upload folder.
Python strings are modelled as Lean `String` (a list of characters); the
string primitives used by the handlers (`strip`, `upper`, `lower`, `in`,
`startswith`, `rsplit`, werkzeug's `secure_filename`) are embedded for the
ASCII fragment, which is the identity fragment of Python's Unicode-aware
versions on ASCII input.
-/

namespace LMS

/-! ## Python string primitives -/

/-- Whitespace recognised by Python's `str.strip()` / `str.split()`
(ASCII fragment: space, tab, newline, carriage return, vertical tab, form
feed — code points 32, 9, 10, 13, 11, 12). -/
def isPySpace (c : Char) : Bool :=
  c.toNat == 32 || c.toNat == 9 || c.toNat == 10 || c.toNat == 13 ||
    c.toNat == 11 || c.toNat == 12

/-- Python `str.upper()` on one character (ASCII fragment). -/
def pyUpperChar (c : Char) : Char :=
  if 97 ≤ c.toNat ∧ c.toNat ≤ 122 then Char.ofNat (c.toNat - 32) else c

/-- Python `str.lower()` on one character (ASCII fragment). -/
def pyLowerChar (c : Char) : Char :=
  if 65 ≤ c.toNat ∧ c.toNat ≤ 90 then Char.ofNat (c.toNat + 32) else c

/-- Python `str.upper()` (ASCII fragment). -/
def pyUpper (s : String) : String := ⟨s.data.map pyUpperChar⟩

/-- Python `str.lower()` (ASCII fragment). -/
def pyLower (s : String) : String := ⟨s.data.map pyLowerChar⟩

/-- Drop the characters satisfying `p` from both ends of a character list. -/
def stripList (p : Char → Bool) (l : List Char) : List Char :=
  ((l.dropWhile p).reverse.dropWhile p).reverse

/-- Python `str.strip()` with no argument: strip whitespace from both ends. -/
def pyStrip (s : String) : String := ⟨stripList isPySpace s.data⟩

/-- Substring test on character lists: does `sub` occur contiguously in the list? -/
def hasSub (sub : List Char) : List Char → Bool
  | [] => sub.isEmpty
  | c :: rest => sub.isPrefixOf (c :: rest) || hasSub sub rest

/-- Python's `sub in s` substring containment test. -/
def pyIn (sub s : String) : Bool := hasSub sub.data s.data

/-- Python's `s.startswith(pre)` test. -/
def pyStartsWith (s pre : String) : Bool := pre.data.isPrefixOf s.data

/-- Characters after the last `'.'` of the list (all of it when no dot occurs):
Python's `l.rsplit('.', 1)[1]` when a dot is present. -/
def afterLastDot (l : List Char) : List Char :=
  (l.reverse.takeWhile (fun c => !(c == ('.')))).reverse

/-! ## werkzeug `secure_filename` (called by `submit_submission`, src/app.py:316,321)

Embedded for POSIX (`os.sep = '/'`, no `altsep`, `os.name ≠ 'nt'`) and for
ASCII input: the initial `unicodedata.normalize("NFKD', …).encode("ascii",
"ignore")` step is the identity on ASCII characters and is modelled as
dropping the non-ASCII ones (the NFKD decomposition of non-ASCII characters
is not modelled). -/

/-- Step 1 of `secure_filename`: keep only ASCII characters. -/
def asciiOnly (l : List Char) : List Char := l.filter (fun c => c.toNat < 128)

/-- Step 2 of `secure_filename`: replace the path separator `'/'` by a space. -/
def replaceSep (l : List Char) : List Char :=
  l.map (fun c => if c == ('/') then (' ') else c)

/-- Python `str.split()` with no argument: split on whitespace runs, no empty words. -/
def pySplitList (l : List Char) : List (List Char) :=
  (l.splitOnP isPySpace).filter (fun w => !w.isEmpty)

/-- Characters kept by werkzeug's `_filename_ascii_strip_re` (it deletes the others):
letters, digits, `'_'`, `'.'`, `'-'`. -/
def sfKeep (c : Char) : Bool :=
  (65 ≤ c.toNat && c.toNat ≤ 90) || (97 ≤ c.toNat && c.toNat ≤ 122) ||
    (48 ≤ c.toNat && c.toNat ≤ 57) || c == ('_') || c == ('.') || c == ('-')

/-- Membership in Python's `"._"` used by the final `strip("._")`. -/
def isDotOrUnderscore (c : Char) : Bool := c == ('.') || c == ('_')

/-- werkzeug's `secure_filename` on POSIX for ASCII input:
ascii-filter, separator to space, `"_".join(s.split())`, delete disallowed
characters, strip `'.'` and `'_'` from both ends. The Windows device-file
special case is dead code off Windows and is not modelled. -/
def secure_filename (s : String) : String :=
  ⟨stripList isDotOrUnderscore
    (((List.intercalate ([('_')]) (pySplitList (replaceSep (asciiOnly s.data))))).filter sfKeep)⟩

/-! ## Random tokens -/

/-- Hex digit characters, lowercase, as produced by Python's `hex`/`token_hex`. -/
def hexDigit (n : Nat) : Char := (("0123456789abcdef").data.getD n ('0'))

/-- Python `secrets.token_hex(k)` applied to the drawn bytes: each byte becomes
two lowercase hex digits. The randomness source is a parameter (the list of
drawn bytes); the encoding is deterministic. -/
def token_hex : List Nat → List Char
  | [] => []
  | b :: bs => hexDigit (b / 16) :: hexDigit (b % 16) :: token_hex bs

/-! ## Data model (src/app.py:39-63) -/

/-- Row of table `class` (model `Class`, src/app.py:39-45). -/
structure ClassRec where
  id : Nat
  name : String
  teacher_id : String
  join_code : String
deriving DecidableEq, Repr

/-- Row of table `assignment` (model `Assignment`, src/app.py:47-55).
`due_date` is an optional timestamp, modelled as `Option Nat`. -/
structure Assignment where
  id : Nat
  title : String
  description : Option String
  file_link : Option String
  max_score : Int
  due_date : Option Nat
  class_id : Nat
deriving DecidableEq, Repr

/-- Row of table `submission` (model `Submission`, src/app.py:57-63). -/
structure Submission where
  id : Nat
  student_name : String
  filename : String
  submitted_at : Nat
  score : Option Int
  assignment_id : Nat
deriving DecidableEq, Repr

/-- The persistence store: the three tables. -/
structure Store where
  classes : List ClassRec
  assignments : List Assignment
  submissions : List Submission
deriving DecidableEq, Repr

/-- Whole application state: the persistence store plus the blob store
(the set of filenames saved in `UPLOAD_FOLDER`, as a list). -/
structure AppState where
  store : Store
  blobs : List String
deriving DecidableEq, Repr

/-! ## Handlers -/

/-- Outcome of the `view_file` route. -/
inductive ViewFileResult where
  | notFound
  | serveFile (filename : String)
deriving DecidableEq, Repr

/-- Route `view_file` (src/app.py:239-247): reject a filename containing `".."`
or starting with `'/'` with a 404 before any filesystem access; otherwise hand
the name to `send_from_directory` for lookup. -/
def view_file (filename : String) : ViewFileResult :=
  if pyIn ("..") filename || pyStartsWith filename ("/") then .notFound
  else .serveFile filename

/-- Outcome of the `grade_submission` route. -/
inductive GradeResult where
  | notFound
  | validationError
  | ok
deriving DecidableEq, Repr

/-- Route `grade_submission` (src/app.py:216-236): 404 when the submission id
does not resolve (`get_or_404`); flash a validation error when the parsed score
is absent, negative, or above the assignment's `max_score` (no write); otherwise
set the score and commit. The assignment is reached through the `assignment_rel`
relationship (a foreign-key lookup). -/
def grade_submission (store : Store) (submission_id : Nat) (score : Option Int) :
    GradeResult × Store :=
  match store.submissions.find? (fun s => s.id == submission_id) with
  | none => (.notFound, store)
  | some sub =>
    match store.assignments.find? (fun a => a.id == sub.assignment_id) with
    | none => (.notFound, store)
    | some a =>
      match score with
      | none => (.validationError, store)
      | some sc =>
        if sc < 0 ∨ sc > a.max_score then (.validationError, store)
        else
          (.ok, { store with
            submissions := store.submissions.map
              (fun s => if s.id == submission_id then { s with score := some sc } else s) })

/-- Outcome of the add branch of `manage_classes`. -/
inductive AddClassResult where
  | validationError
  | integrityError
  | ok
deriving DecidableEq, Repr

/-- Add branch of route `manage_classes` (src/app.py:126-135): flash an error
when `class_name` is falsy (absent or empty); otherwise generate
`secrets.token_hex(3).upper()` as the join code and insert the class. The
`join_code` column is declared `unique=True` (src/app.py:44), so a commit that
would duplicate an existing join code raises an integrity error and persists
nothing; the drawn random bytes are a parameter. -/
def manage_classes_add (store : Store) (class_name : Option String)
    (randomBytes : List Nat) (newId : Nat) : AddClassResult × Store :=
  match class_name with
  | none => (.validationError, store)
  | some nm =>
    if nm = "" then (.validationError, store)
    else
      if store.classes.any (fun c => c.join_code == pyUpper ⟨token_hex randomBytes⟩) then
        (.integrityError, store)
      else
        (.ok, { store with classes := store.classes ++
          [{ id := newId, name := nm, teacher_id := ("default_teacher"),
             join_code := pyUpper ⟨token_hex randomBytes⟩ }] })

/-- Delete branch of route `manage_classes` (src/app.py:137-145) together with
the declared ORM cascades (`cascade='all, delete-orphan'`, src/app.py:45,55):
`none` models the not-found flash; otherwise the class row, its assignments,
and their submissions are deleted in one commit. -/
def deleteClass (store : Store) (class_id : Nat) : Option Store :=
  match store.classes.find? (fun c => c.id == class_id) with
  | none => none
  | some _ =>
    some { classes := store.classes.filter (fun c => !(c.id == class_id)),
           assignments := store.assignments.filter (fun a => !(a.class_id == class_id)),
           submissions := store.submissions.filter
             (fun s => !((store.assignments.filter (fun a => a.class_id == class_id)).any
               (fun a => a.id == s.assignment_id))) }

/-- Route `delete_assignment` (src/app.py:191-204) with the declared ORM cascade:
`none` models the `get_or_404` miss; otherwise the assignment row and its
submissions are deleted in one commit. -/
def delete_assignment (store : Store) (assignment_id : Nat) : Option Store :=
  match store.assignments.find? (fun a => a.id == assignment_id) with
  | none => none
  | some _ =>
    some { store with
           assignments := store.assignments.filter (fun a => !(a.id == assignment_id)),
           submissions := store.submissions.filter (fun s => !(s.assignment_id == assignment_id)) }

/-- Delete branch of `manage_classes` at application-state level: the handler
performs only database operations, no blob-store (filesystem) operation. -/
def manage_classes_delete_route (st : AppState) (class_id : Nat) : AppState :=
  match deleteClass st.store class_id with
  | none => st
  | some s => { st with store := s }

/-- Route `delete_assignment` at application-state level: the handler performs
only database operations, no blob-store (filesystem) operation. -/
def delete_assignment_route (st : AppState) (assignment_id : Nat) : AppState :=
  match delete_assignment st.store assignment_id with
  | none => st
  | some s => { st with store := s }

/-- Outcome of the `add_assignment` POST handler. -/
inductive AddAssignmentResult where
  | validationError
  | ok
deriving DecidableEq, Repr

/-- Route `add_assignment`, POST branch (src/app.py:153-188): the guard
`if not all([title, max_score, class_id])` flashes a validation error when any
of the three form values is missing or falsy (`None`, empty string, or the
integer 0); otherwise the assignment row is inserted and committed — the
handler never checks that `class_id` resolves to an existing class, and the
default SQLite configuration does not enforce the foreign key (with an
FK-enforcing store the commit would raise and roll back as a generic error,
still without any not-found outcome). `due_date` is the already-parsed
optional timestamp; an empty `file_link` is stored as NULL (src/app.py:175). -/
def add_assignment (store : Store) (title description file_link : Option String)
    (max_score : Option Int) (due_date : Option Nat) (class_id : Option Nat)
    (newId : Nat) : AddAssignmentResult × Store :=
  match title, max_score, class_id with
  | some t, some m, some cid =>
    if t = "" ∨ m = 0 ∨ cid = 0 then (.validationError, store)
    else
      (.ok, { store with assignments := store.assignments ++
        [{ id := newId, title := t, description := description,
           file_link := (match file_link with
                         | none => none
                         | some fl => if fl = "" then none else some fl),
           max_score := m, due_date := due_date, class_id := cid }] })
  | _, _, _ => (.validationError, store)

/-- Join-code lookup of route `student_view_assignments` (src/app.py:260-273):
the form value is normalized by `.strip().upper()`; an empty normalized code
redirects without lookup; otherwise the first class with exactly that
`join_code` is returned. -/
def resolveJoinCode (store : Store) (raw : String) : Option ClassRec :=
  let join_code := pyUpper (pyStrip raw)
  if join_code = "" then none
  else store.classes.find? (fun c => c.join_code == join_code)

/-- Descending due-date comparator used to model
`order_by(Assignment.due_date.desc())` (src/app.py:276): `a` may precede `b`
when `a`'s due date is at least `b`'s, where a NULL due date sorts below every
timestamp (SQLite places NULLs last in a descending order). -/
def dueGe (a b : Assignment) : Bool :=
  match a.due_date, b.due_date with
  | _, none => true
  | none, some _ => false
  | some x, some y => decide (y ≤ x)

/-- Insertion step of the sort modelling the store's ORDER BY. -/
def insertBy (r : Assignment → Assignment → Bool) (x : Assignment) :
    List Assignment → List Assignment
  | [] => [x]
  | y :: ys => if r x y then x :: y :: ys else y :: insertBy r x ys

/-- Insertion sort modelling the store's ORDER BY. -/
def sortBy (r : Assignment → Assignment → Bool) : List Assignment → List Assignment
  | [] => []
  | x :: xs => insertBy r x (sortBy r xs)

/-- Assignment query of route `student_view_assignments` (src/app.py:276):
`filter_by(class_id=…).order_by(Assignment.due_date.desc()).all()`. -/
def listAssignmentsForClass (store : Store) (class_id : Nat) : List Assignment :=
  sortBy dueGe (store.assignments.filter (fun a => a.class_id == class_id))

/-- Stored-filename derivation of route `submit_submission` (src/app.py:315-321):
`original_filename = secure_filename(file.filename)`; the extension is the
lower-cased part after the last dot of that sanitized name, or `"dat"` when it
has no dot; the stored name is
`f"{secure_filename(student_name)[:20]}_{assignment_id}_{secrets.token_hex(4)}.{file_extension}"`. -/
def make_unique_filename (student_name : String) (assignment_id : Nat)
    (randomBytes : List Nat) (raw_filename : String) : String :=
  let original_filename := secure_filename raw_filename
  let file_extension : String :=
    if pyIn (".") original_filename then pyLower ⟨afterLastDot original_filename.data⟩
    else ("dat")
  (⟨(secure_filename student_name).data.take 20⟩ : String) ++ ("_") ++
    (toString assignment_id) ++ ("_") ++ (⟨token_hex randomBytes⟩ : String) ++ (".") ++
    file_extension

/-- Stored-filename formula in the words of claim C5 (for comparison with
`make_unique_filename`): identical except that the extension is computed from
the RAW original filename — its suffix after the last `'.'` lower-cased, or
`"dat"` when the raw filename contains no `'.'`. -/
def claimed_unique_filename (student_name : String) (assignment_id : Nat)
    (randomBytes : List Nat) (raw_filename : String) : String :=
  let ext : String :=
    if pyIn (".") raw_filename then pyLower ⟨afterLastDot raw_filename.data⟩
    else ("dat")
  (⟨(secure_filename student_name).data.take 20⟩ : String) ++ ("_") ++
    (toString assignment_id) ++ ("_") ++ (⟨token_hex randomBytes⟩ : String) ++ (".") ++
    ext

/-- Outcome of the `submit_submission` route. -/
inductive SubmitResult where
  | notFound
  | validationError
  | ok
deriving DecidableEq, Repr

/-- Route `submit_submission` (src/app.py:299-346): 404 when the assignment id
does not resolve; validation error when `student_name` is falsy, the file part
is absent, or the uploaded filename is empty; otherwise the file bytes are
saved in the blob store under the generated unique name and the submission row
is inserted with a NULL score. `file_name` is the browser-supplied
`file.filename` (`none` models a request without a `'file'` part); the drawn
random bytes and the server clock are parameters. -/
def submit_submission (st : AppState) (assignment_id : Nat)
    (student_name : Option String) (file_name : Option String)
    (randomBytes : List Nat) (now : Nat) (newId : Nat) : SubmitResult × AppState :=
  if !(st.store.assignments.any (fun a => a.id == assignment_id)) then (.notFound, st)
  else
    match student_name, file_name with
    | some nm, some fn =>
      if nm = "" then (.validationError, st)
      else if fn = "" then (.validationError, st)
      else
        let unique_filename := make_unique_filename nm assignment_id randomBytes fn
        (.ok, { store := { st.store with submissions := st.store.submissions ++
                  [{ id := newId, student_name := nm, filename := unique_filename,
                     submitted_at := now, score := none, assignment_id := assignment_id }] },
                blobs := st.blobs ++ [unique_filename] })
    | _, _ => (.validationError, st)

/-! ## Concrete fixtures used by the witness theorems -/

/-- Sample class, matching the seed data shape of `setup_db` (src/app.py:86). -/
def sampleClass : ClassRec :=
  { id := 1, name := "Math 3/1", teacher_id := "default_teacher", join_code := "AB12CD" }

/-- Sample assignment with `max_score = 20` (src/app.py:90-97). -/
def sampleAssignment : Assignment :=
  { id := 1, title := "Pythagoras worksheet", description := none, file_link := none,
    max_score := 20, due_date := some 100, class_id := 1 }

/-- Second sample assignment with an earlier due date (src/app.py:98-105). -/
def sampleAssignment2 : Assignment :=
  { id := 2, title := "Word problems", description := none, file_link := none,
    max_score := 50, due_date := some 50, class_id := 1 }

/-- Sample ungraded submission for `sampleAssignment`. -/
def sampleSubmission : Submission :=
  { id := 1, student_name := "Somsak", filename := "Somsak_1_deadbeef.pdf",
    submitted_at := 0, score := none, assignment_id := 1 }

/-- Sample persistence store holding the fixtures above. -/
def sampleStore : Store :=
  { classes := [sampleClass], assignments := [sampleAssignment, sampleAssignment2],
    submissions := [sampleSubmission] }

/-- Sample application state: the sample store plus the one uploaded blob. -/
def sampleState : AppState :=
  { store := sampleStore, blobs := ["Somsak_1_deadbeef.pdf"] }

/-! ## Theorems -/

/-- Helper: `find?` commutes with a map that leaves the search predicate
invariant. -/
theorem find?_map_pres {α : Type} (p : α → Bool) (f : α → α)
    (hpf : ∀ x, p (f x) = p x) (l : List α) :
    (l.map f).find? p = (l.find? p).map f := by
  induction l with
  | nil => rfl
  | cons a t ih =>
    cases hpa : p a
    · have hfa : p (f a) = false := by rw [hpf]; exact hpa
      simp [List.find?_cons, hpa, hfa, ih]
    · have hfa : p (f a) = true := by rw [hpf]; exact hpa
      simp [List.find?_cons, hpa, hfa]

/-- C1: `view_file` returns a not-found outcome — performing no filesystem
lookup — for every filename that contains the substring `".."` or starts with
the path separator `'/'`; for every other filename it proceeds to look up the
blob by exactly that name. -/
theorem view_file_rejects_traversal (filename : String) :
    (pyIn ("..") filename = true ∨ pyStartsWith filename ("/") = true →
      view_file filename = .notFound) ∧
    (pyIn ("..") filename = false → pyStartsWith filename ("/") = false →
      view_file filename = .serveFile filename) := by
  constructor
  · intro h
    unfold view_file
    rcases h with h | h <;> simp [h]
  · intro h1 h2
    unfold view_file
    simp [h1, h2]

/-- Witness for C1: the spec's two traversal examples are rejected and an
ordinary filename is served. -/
theorem view_file_rejects_traversal_witness :
    view_file ("../../etc/passwd") = .notFound ∧
    view_file ("/etc/passwd") = .notFound ∧
    view_file ("homework.pdf") = .serveFile ("homework.pdf") :=
  ⟨(view_file_rejects_traversal ("../../etc/passwd")).1 (Or.inl (by decide)),
   (view_file_rejects_traversal ("/etc/passwd")).1 (Or.inr (by decide)),
   (view_file_rejects_traversal ("homework.pdf")).2 (by decide) (by decide)⟩

/-- C10: the class-delete and assignment-delete handlers change only the
persistence store — the blob store is untouched, so the uploaded file of every
submission (in particular every cascade-deleted one) is still stored under its
generated filename afterwards. -/
theorem delete_routes_touch_only_store (st : AppState) (class_id assignment_id : Nat) :
    (manage_classes_delete_route st class_id).blobs = st.blobs ∧
    (delete_assignment_route st assignment_id).blobs = st.blobs ∧
    (∀ s ∈ st.store.submissions, s.filename ∈ st.blobs →
      s.filename ∈ (manage_classes_delete_route st class_id).blobs) ∧
    (∀ s ∈ st.store.submissions, s.filename ∈ st.blobs →
      s.filename ∈ (delete_assignment_route st assignment_id).blobs) := by
  have h1 : (manage_classes_delete_route st class_id).blobs = st.blobs := by
    unfold manage_classes_delete_route
    cases deleteClass st.store class_id <;> rfl
  have h2 : (delete_assignment_route st assignment_id).blobs = st.blobs := by
    unfold delete_assignment_route
    cases delete_assignment st.store assignment_id <;> rfl
  exact ⟨h1, h2, fun s _ hm => h1 ▸ hm, fun s _ hm => h2 ▸ hm⟩

/-- Witness for C10: deleting the sample class (which cascades to the sample
submission) leaves the sample submission's blob in place. -/
theorem delete_routes_touch_only_store_witness :
    sampleSubmission.filename ∈ (manage_classes_delete_route sampleState 1).blobs ∧
    sampleSubmission.filename ∈ (delete_assignment_route sampleState 1).blobs :=
  ⟨(delete_routes_touch_only_store sampleState 1 1).2.2.1 sampleSubmission (by decide)
      (by decide),
   (delete_routes_touch_only_store sampleState 1 1).2.2.2 sampleSubmission (by decide)
      (by decide)⟩

/-- C9: `add_assignment` tests truthiness rather than presence, so a request
supplying `max_score = 0` (or `class_id = 0`) is rejected exactly like a
missing field, and no assignment with `max_score = 0` can ever be created
through this handler. -/
theorem add_assignment_rejects_zero (store : Store)
    (title description file_link : Option String) (max_score : Option Int)
    (due_date : Option Nat) (class_id : Option Nat) (newId : Nat) :
    (add_assignment store title description file_link (some 0) due_date class_id newId
      = (.validationError, store)) ∧
    (add_assignment store title description file_link max_score due_date (some 0) newId
      = (.validationError, store)) ∧
    (∀ a ∈ (add_assignment store title description file_link max_score due_date class_id
        newId).2.assignments, a ∈ store.assignments ∨ a.max_score ≠ 0) := by
  refine ⟨?_, ?_, ?_⟩
  · cases title <;> cases class_id <;> simp [add_assignment]
  · cases title <;> cases max_score <;> simp [add_assignment]
  · intro a ha
    cases title with
    | none => simp [add_assignment] at ha; exact Or.inl ha
    | some t =>
      cases max_score with
      | none => simp [add_assignment] at ha; exact Or.inl ha
      | some m =>
        cases class_id with
        | none => simp [add_assignment] at ha; exact Or.inl ha
        | some cid =>
          by_cases hguard : t = "" ∨ m = 0 ∨ cid = 0
          · simp [add_assignment, hguard] at ha
            exact Or.inl ha
          · simp [add_assignment, hguard] at ha
            rcases ha with ha | ha
            · exact Or.inl ha
            · right
              subst ha
              simp
              omega

/-- Witness for C9: on the sample store, `max_score = 0` and `class_id = 0` are
both rejected with the store unchanged. -/
theorem add_assignment_rejects_zero_witness :
    add_assignment sampleStore (some ("Quiz")) none none (some 0) none (some 1) 3
      = (.validationError, sampleStore) ∧
    add_assignment sampleStore (some ("Quiz")) none none (some 10) none (some 0) 3
      = (.validationError, sampleStore) :=
  ⟨(add_assignment_rejects_zero sampleStore (some ("Quiz")) none none (some 10) none
      (some 1) 3).1,
   (add_assignment_rejects_zero sampleStore (some ("Quiz")) none none (some 10) none
      (some 1) 3).2.1⟩

/-- Counterexample to C6: on an empty store, where `class_id = 3` resolves to
no class, `add_assignment` does not fail at all — it succeeds and creates the
assignment record referencing the nonexistent class. -/
theorem add_assignment_dangling_class_cex :
    (∀ c ∈ (Store.mk [] [] []).classes, ¬ c.id = 3) ∧
    (add_assignment (Store.mk [] [] []) (some ("hw")) none none (some 10) none (some 3)
        1).1 = .ok ∧
    ((add_assignment (Store.mk [] [] []) (some ("hw")) none none (some 10) none (some 3)
        1).2.assignments.map (fun a => a.class_id)) = [3] := by
  refine ⟨?_, ?_, ?_⟩ <;> decide

/-- C6 amended: `add_assignment` fails with a validation error when title,
maxScore, or classId is missing, and every validation failure leaves the store
unchanged — no assignment record is created; the handler performs no check
that classId resolves to an existing class and never produces a not-found
failure: whatever record a successful call creates carries the supplied
classId unchanged, whether or not that id resolves. -/
theorem add_assignment_validation (store : Store)
    (title description file_link : Option String) (max_score : Option Int)
    (due_date : Option Nat) (class_id : Option Nat) (newId : Nat) :
    ((title = none ∨ max_score = none ∨ class_id = none) →
      add_assignment store title description file_link max_score due_date class_id newId
        = (.validationError, store)) ∧
    (∀ st2, add_assignment store title description file_link max_score due_date class_id
        newId = (.ok, st2) →
      st2.classes = store.classes ∧ st2.submissions = store.submissions ∧
      ∃ t m cid rec, title = some t ∧ max_score = some m ∧ class_id = some cid ∧
        ¬(t = "" ∨ m = 0 ∨ cid = 0) ∧
        st2.assignments = store.assignments ++ [rec] ∧ rec.class_id = cid ∧
        rec.title = t ∧ rec.max_score = m) ∧
    ((add_assignment store title description file_link max_score due_date class_id
        newId).1 = .validationError →
      (add_assignment store title description file_link max_score due_date class_id
        newId).2 = store) := by
  refine ⟨?_, ?_, ?_⟩
  · intro h
    cases title with
    | none => cases max_score <;> cases class_id <;> simp [add_assignment]
    | some t =>
      cases max_score with
      | none => cases class_id <;> simp [add_assignment]
      | some m =>
        cases class_id with
        | none => simp [add_assignment]
        | some cid => rcases h with h | h | h <;> simp_all
  · intro st2 h
    cases title with
    | none => cases max_score <;> cases class_id <;> simp [add_assignment] at h
    | some t =>
      cases max_score with
      | none => cases class_id <;> simp [add_assignment] at h
      | some m =>
        cases class_id with
        | none => simp [add_assignment] at h
        | some cid =>
          by_cases hguard : t = "" ∨ m = 0 ∨ cid = 0
          · simp [add_assignment, hguard] at h
          · simp only [add_assignment, if_neg hguard] at h
            injection h with h1 h2
            subst h2
            refine ⟨rfl, rfl, t, m, cid,
              { id := newId, title := t, description := description,
                file_link := (match file_link with
                              | none => none
                              | some fl => if fl = "" then none else some fl),
                max_score := m, due_date := due_date, class_id := cid },
              rfl, rfl, rfl, hguard, rfl, rfl, rfl, rfl⟩
  · intro hres
    cases title with
    | none => cases max_score <;> cases class_id <;> rfl
    | some t =>
      cases max_score with
      | none => cases class_id <;> rfl
      | some m =>
        cases class_id with
        | none => rfl
        | some cid =>
          by_cases hguard : t = "" ∨ m = 0 ∨ cid = 0
          · simp [add_assignment, hguard]
          · simp [add_assignment, hguard] at hres

/-- Witness for the amended C6: a request with no title is rejected with the
sample store unchanged, and a validation failure on a present-but-empty title
also leaves the sample store unchanged. -/
theorem add_assignment_validation_witness :
    add_assignment sampleStore none none none (some 10) none (some 1) 3
      = (.validationError, sampleStore) ∧
    (add_assignment sampleStore (some ("")) none none (some 10) none (some 1) 3).2
      = sampleStore :=
  ⟨(add_assignment_validation sampleStore none none none (some 10) none (some 1) 3).1
      (Or.inl rfl),
   (add_assignment_validation sampleStore (some ("")) none none (some 10) none (some 1)
      3).2.2 (by decide)⟩

/-- Helper: removing the elements satisfying `p` shortens a list by exactly
`countP p`. -/
theorem length_filter_not {α : Type} (p : α → Bool) (l : List α) :
    (l.filter (fun a => !(p a))).length + l.countP p = l.length := by
  induction l with
  | nil => rfl
  | cons a t ih =>
    cases hpa : p a <;> simp [List.filter_cons, List.countP_cons, hpa] <;> omega

/-- Helper: when the mapped keys are distinct, exactly one element carries the
key of a member. -/
theorem countP_key_eq_one {α : Type} (f : α → Nat) (v : Nat) (l : List α)
    (hn : (l.map f).Nodup) (x : α) (hx : x ∈ l) (hfx : f x = v) :
    l.countP (fun y => f y == v) = 1 := by
  induction l with
  | nil => cases hx
  | cons a t ih =>
    simp only [List.map_cons, List.nodup_cons] at hn
    rcases List.mem_cons.mp hx with h | h
    · subst h
      have h0 : t.countP (fun y => f y == v) = 0 := by
        rw [List.countP_eq_zero]
        intro y hy
        simp only [beq_iff_eq]
        intro hcontra
        exact hn.1 (hfx ▸ hcontra ▸ List.mem_map_of_mem f hy)
      simp [List.countP_cons, hfx, h0]
    · have hfa : ¬((f a == v) = true) := by
        simp only [beq_iff_eq]
        intro hcontra
        exact hn.1 (hcontra ▸ hfx ▸ List.mem_map_of_mem f h)
      simp only [List.countP_cons, if_neg hfa]
      simpa using ih hn.2 h

/-- C3: when `deleteClass` succeeds on a store whose class ids are distinct, it
removes exactly `1 + N + M` records in the one cascading commit — `N` the
assignments of the class, `M` the submissions of those assignments — and
afterwards no assignment row references the deleted class id and no submission
row references any deleted assignment id. -/
theorem deleteClass_cascade (store : Store) (cid : Nat) (st : Store)
    (hnodup : (store.classes.map (fun c => c.id)).Nodup)
    (h : deleteClass store cid = some st) :
    store.classes.length + store.assignments.length + store.submissions.length
      = st.classes.length + st.assignments.length + st.submissions.length
        + (1 + (store.assignments.filter (fun a => a.class_id == cid)).length
           + (store.submissions.filter (fun s =>
                (store.assignments.filter (fun a => a.class_id == cid)).any
                  (fun a => a.id == s.assignment_id))).length) ∧
    (∀ a ∈ st.assignments, ¬ a.class_id = cid) ∧
    (∀ s ∈ st.submissions, ∀ a ∈ store.assignments, a.class_id = cid →
      ¬ s.assignment_id = a.id) := by
  unfold deleteClass at h
  split at h
  · cases h
  case _ c0 heq =>
    injection h with h
    subst h
    refine ⟨?_, ?_, ?_⟩
    · have hc1 : (store.classes.filter (fun c => !(c.id == cid))).length
          + store.classes.countP (fun c => c.id == cid)
          = store.classes.length := length_filter_not _ _
      have hcount1 : store.classes.countP (fun c => c.id == cid) = 1 := by
        have hmem := List.mem_of_find?_eq_some heq
        have hkey := List.find?_some heq
        simp only [beq_iff_eq] at hkey
        exact countP_key_eq_one (fun c => c.id) cid store.classes hnodup c0 hmem hkey
      have ha1 : (store.assignments.filter (fun a => !(a.class_id == cid))).length
          + store.assignments.countP (fun a => a.class_id == cid)
          = store.assignments.length := length_filter_not _ _
      have hN : store.assignments.countP (fun a => a.class_id == cid)
          = (store.assignments.filter (fun a => a.class_id == cid)).length :=
        List.countP_eq_length_filter _ _
      have hs1 : (store.submissions.filter (fun s =>
            !((store.assignments.filter (fun a => a.class_id == cid)).any
              (fun a => a.id == s.assignment_id)))).length
          + store.submissions.countP (fun s =>
              (store.assignments.filter (fun a => a.class_id == cid)).any
                (fun a => a.id == s.assignment_id))
          = store.submissions.length := length_filter_not _ _
      have hM : store.submissions.countP (fun s =>
            (store.assignments.filter (fun a => a.class_id == cid)).any
              (fun a => a.id == s.assignment_id))
          = (store.submissions.filter (fun s =>
              (store.assignments.filter (fun a => a.class_id == cid)).any
                (fun a => a.id == s.assignment_id))).length :=
        List.countP_eq_length_filter _ _
      dsimp only
      omega
    · intro a ha
      have := (List.mem_filter.mp ha).2
      simpa using this
    · intro s hsm a ha hac
      have hcond := (List.mem_filter.mp hsm).2
      simp only [Bool.not_eq_true'] at hcond
      have hall := List.any_eq_false.mp hcond
      have hadead : a ∈ store.assignments.filter (fun x => x.class_id == cid) :=
        List.mem_filter.mpr ⟨ha, by simp [hac]⟩
      have := hall a hadead
      simp only [beq_iff_eq] at this
      intro hgoal
      exact this hgoal.symm

/-- Witness for C3: deleting the sample class (1 class, 2 assignments, 1
submission) empties the store and the record count drops by 1 + 2 + 1. -/
theorem deleteClass_cascade_witness :
    deleteClass sampleStore 1 = some (Store.mk [] [] []) ∧
    sampleStore.classes.length + sampleStore.assignments.length
        + sampleStore.submissions.length
      = (Store.mk [] [] []).classes.length + (Store.mk [] [] []).assignments.length
        + (Store.mk [] [] []).submissions.length
        + (1 + (sampleStore.assignments.filter (fun a => a.class_id == 1)).length
           + (sampleStore.submissions.filter (fun s =>
                (sampleStore.assignments.filter (fun a => a.class_id == 1)).any
                  (fun a => a.id == s.assignment_id))).length) :=
  ⟨by decide,
   (deleteClass_cascade sampleStore 1 (Store.mk [] [] []) (by decide) (by decide)).1⟩

/-- Helper: `token_hex` yields two characters per byte. -/
theorem length_token_hex (bs : List Nat) : (token_hex bs).length = 2 * bs.length := by
  induction bs with
  | nil => rfl
  | cons b t ih =>
    simp [token_hex, ih]
    omega

/-- Helper: the uppercased hex digit of a value below 16 is a decimal digit or
an uppercase `A`-`F`. -/
theorem hex_upper_char (n : Nat) (h : n < 16) :
    (48 ≤ (pyUpperChar (hexDigit n)).toNat ∧ (pyUpperChar (hexDigit n)).toNat ≤ 57) ∨
    (65 ≤ (pyUpperChar (hexDigit n)).toNat ∧ (pyUpperChar (hexDigit n)).toNat ≤ 70) := by
  have hall : ∀ m, m < 16 →
      (48 ≤ (pyUpperChar (hexDigit m)).toNat ∧ (pyUpperChar (hexDigit m)).toNat ≤ 57) ∨
      (65 ≤ (pyUpperChar (hexDigit m)).toNat ∧ (pyUpperChar (hexDigit m)).toNat ≤ 70) := by
    decide
  exact hall n h

/-- Helper: every character of an uppercased hex encoding of bytes is a decimal
digit or an uppercase `A`-`F`. -/
theorem token_hex_upper_chars (bs : List Nat) (hb : ∀ b ∈ bs, b < 256) :
    ∀ ch ∈ (token_hex bs).map pyUpperChar,
      (48 ≤ ch.toNat ∧ ch.toNat ≤ 57) ∨ (65 ≤ ch.toNat ∧ ch.toNat ≤ 70) := by
  induction bs with
  | nil => intro ch hch; cases hch
  | cons b t ih =>
    intro ch hch
    simp only [token_hex, List.map_cons, List.mem_cons] at hch
    have hb0 : b < 256 := hb b (by simp)
    rcases hch with h | h | h
    · subst h; exact hex_upper_char (b / 16) (by omega)
    · subst h; exact hex_upper_char (b % 16) (by omega)
    · exact ih (fun x hx => hb x (by simp [hx])) ch h

/-- C4: a class created by the add branch of `manage_classes` appends one class
record whose join code is the uppercased hex encoding of the 3 drawn random
bytes — 6 characters, each a decimal digit or `A`-`F` — and, at creation time,
that code differs from the join code of every previously existing class (the
store-level `unique=True` constraint refuses the commit otherwise). -/
theorem manage_classes_add_join_code (store : Store) (class_name : Option String)
    (bytes : List Nat) (newId : Nat) (st : Store)
    (hlen : bytes.length = 3) (hbytes : ∀ b ∈ bytes, b < 256)
    (h : manage_classes_add store class_name bytes newId = (.ok, st)) :
    ∃ c : ClassRec, st.classes = store.classes ++ [c] ∧
      c.join_code.length = 6 ∧
      (∀ ch ∈ c.join_code.data,
        (48 ≤ ch.toNat ∧ ch.toNat ≤ 57) ∨ (65 ≤ ch.toNat ∧ ch.toNat ≤ 70)) ∧
      (∀ c0 ∈ store.classes, c0.join_code ≠ c.join_code) := by
  cases class_name with
  | none => simp [manage_classes_add] at h
  | some nm =>
    by_cases hnm : nm = ""
    · simp [manage_classes_add, hnm] at h
    · by_cases hdup : (store.classes.any
          (fun c => c.join_code == pyUpper ⟨token_hex bytes⟩)) = true
      · simp [manage_classes_add, hnm, hdup] at h
      · have hany : (store.classes.any
            (fun c => c.join_code == pyUpper ⟨token_hex bytes⟩)) = false := by
          simpa using hdup
        simp only [manage_classes_add, if_neg hnm, hany, Bool.false_eq_true,
          if_false] at h
        injection h with h1 h2
        subst h2
        refine ⟨{ id := newId, name := nm, teacher_id := ("default_teacher"),
                  join_code := pyUpper ⟨token_hex bytes⟩ }, rfl, ?_, ?_, ?_⟩
        · show (pyUpper ⟨token_hex bytes⟩).data.length = 6
          simp [pyUpper, length_token_hex, hlen]
        · intro ch hch
          have : ch ∈ (token_hex bytes).map pyUpperChar := by
            simpa [pyUpper] using hch
          exact token_hex_upper_chars bytes hbytes ch this
        · intro c0 hc0
          have hfalse := List.any_eq_false.mp hany c0 hc0
          intro hcontra
          rw [hcontra] at hfalse
          simp at hfalse

/-- Witness for C4: adding a class to the sample store with drawn bytes
`[0xAB, 0x12, 0xCD]` appends a class whose join code `"AB12CD"` is 6
uppercase-hex characters and differs from the existing `"AB12CD"`-distinct
codes. -/
theorem manage_classes_add_join_code_witness :
    ∃ c : ClassRec,
      (manage_classes_add (Store.mk [] [] []) (some ("Science")) [171, 18, 205]
        7).2.classes = (Store.mk [] [] []).classes ++ [c] ∧
      c.join_code.length = 6 ∧
      (∀ ch ∈ c.join_code.data,
        (48 ≤ ch.toNat ∧ ch.toNat ≤ 57) ∨ (65 ≤ ch.toNat ∧ ch.toNat ≤ 70)) ∧
      (∀ c0 ∈ (Store.mk [] [] []).classes, c0.join_code ≠ c.join_code) :=
  manage_classes_add_join_code (Store.mk [] [] []) (some ("Science")) [171, 18, 205] 7
    (manage_classes_add (Store.mk [] [] []) (some ("Science")) [171, 18, 205] 7).2
    (by decide) (by decide) (by decide)

/-- C2: for an existing submission whose assignment resolves with maximum score
`a.max_score`, grading fails with a validation error and leaves the store —
hence the submission's score, null or previous — unchanged whenever the
requested score is missing, negative, or above `a.max_score`; for every score
in `[0, a.max_score]` it succeeds and persists exactly that score on the
submission. -/
theorem grade_submission_bounds (store : Store) (sid : Nat) (sub : Submission)
    (a : Assignment)
    (hs : store.submissions.find? (fun s => s.id == sid) = some sub)
    (ha : store.assignments.find? (fun x => x.id == sub.assignment_id) = some a) :
    (∀ score : Option Int,
      (score = none ∨ ∃ sc, score = some sc ∧ (sc < 0 ∨ sc > a.max_score)) →
      grade_submission store sid score = (.validationError, store)) ∧
    (∀ sc : Int, 0 ≤ sc → sc ≤ a.max_score →
      (grade_submission store sid (some sc)).1 = .ok ∧
      (grade_submission store sid (some sc)).2.submissions.find? (fun s => s.id == sid)
        = some { sub with score := some sc }) := by
  constructor
  · intro score hsc
    rcases hsc with h | ⟨sc, hsc, hb⟩
    · subst h
      simp [grade_submission, hs, ha]
    · subst hsc
      simp [grade_submission, hs, ha, hb]
  · intro sc h0 hm
    have hneg : ¬(sc < 0 ∨ sc > a.max_score) := by omega
    have hpf : ∀ s : Submission,
        ((if (s.id == sid) = true then { s with score := some sc } else s).id == sid)
          = (s.id == sid) := by
      intro s
      by_cases h : (s.id == sid) = true <;> simp [h]
    have hmap := find?_map_pres (fun (s : Submission) => s.id == sid)
      (fun (s : Submission) =>
        if (s.id == sid) = true then { s with score := some sc } else s)
      hpf store.submissions
    have hsub := List.find?_some hs
    simp only at hsub
    simp at hsub
    simp only [grade_submission, hs, ha, if_neg hneg]
    constructor
    · trivial
    · rw [hmap, hs]
      simp [hsub]

/-- Witness for C2: on the sample store (max score 20), grading with 21, -1,
and a missing score all fail and leave the store unchanged; grading with 20
succeeds and stores the score. -/
theorem grade_submission_bounds_witness :
    grade_submission sampleStore 1 (some 21) = (.validationError, sampleStore) ∧
    grade_submission sampleStore 1 (some (-1)) = (.validationError, sampleStore) ∧
    grade_submission sampleStore 1 none = (.validationError, sampleStore) ∧
    (grade_submission sampleStore 1 (some 20)).1 = .ok ∧
    (grade_submission sampleStore 1 (some 20)).2.submissions.find?
        (fun s => s.id == 1) = some { sampleSubmission with score := some 20 } := by
  have h := grade_submission_bounds sampleStore 1 sampleSubmission sampleAssignment
    (by decide) (by decide)
  exact ⟨h.1 (some 21) (Or.inr ⟨21, rfl, Or.inr (by decide)⟩),
         h.1 (some (-1)) (Or.inr ⟨-1, rfl, Or.inl (by decide)⟩),
         h.1 none (Or.inl rfl),
         (h.2 20 (by decide) (by decide)).1,
         (h.2 20 (by decide) (by decide)).2⟩

/-- Counterexample to C5: for the upload `".bashrc"` — whose raw filename
contains a `'.'`, so the claim predicts extension `"bashrc"` — the handler
succeeds but stores extension `"dat"`, because the extension is computed from
`secure_filename(".bashrc") = "bashrc"`, which contains no dot. -/
theorem submit_filename_cex :
    (submit_submission (AppState.mk sampleStore []) 1 (some ("Alice"))
        (some (".bashrc")) [0, 0, 0, 0] 0 2).1 = .ok ∧
    ((submit_submission (AppState.mk sampleStore []) 1 (some ("Alice"))
        (some (".bashrc")) [0, 0, 0, 0] 0 2).2.store.submissions.map
      (fun s => s.filename)) = [("Somsak_1_deadbeef.pdf"), ("Alice_1_00000000.dat")] ∧
    claimed_unique_filename ("Alice") 1 [0, 0, 0, 0] (".bashrc")
      = ("Alice_1_00000000.bashrc") ∧
    ("Alice_1_00000000.dat" : String) ≠ ("Alice_1_00000000.bashrc" : String) := by
  refine ⟨?_, ?_, ?_, ?_⟩ <;> decide

/-- C5 amended: every successful submission appends one record whose stored
filename is the sanitized student name truncated to 20 characters, `'_'`, the
assignment id, `'_'`, 8 random hex characters, `'.'`, and the extension — where
the extension is computed from the SANITIZED original filename
(`secure_filename(file.filename)`): its suffix after the last `'.'`
lower-cased, or the literal token `"dat"` when that sanitized name contains no
`'.'`. -/
theorem submit_filename_structure (st : AppState) (aid : Nat) (nm fn : String)
    (bytes : List Nat) (now newId : Nat) (st2 : AppState)
    (hb : bytes.length = 4)
    (h : submit_submission st aid (some nm) (some fn) bytes now newId = (.ok, st2)) :
    ∃ sub : Submission,
      st2.store.submissions = st.store.submissions ++ [sub] ∧
      sub.filename = (⟨(secure_filename nm).data.take 20⟩ : String) ++ ("_")
        ++ (toString aid) ++ ("_") ++ (⟨token_hex bytes⟩ : String) ++ (".")
        ++ (if pyIn (".") (secure_filename fn) = true
            then pyLower ⟨afterLastDot (secure_filename fn).data⟩ else ("dat")) ∧
      (token_hex bytes).length = 8 := by
  simp only [submit_submission] at h
  split at h
  · simp at h
  · split at h
    · simp at h
    · split at h
      · simp at h
      · injection h with h1 h2
        subst h2
        refine ⟨_, rfl, rfl, ?_⟩
        rw [length_token_hex, hb]

/-- Witness for the amended C5: a concrete successful submission of
`"Report.PDF"` by `"Alice"` stores
`"Alice_1_deadbeef.pdf"` and the structure theorem applies. -/
theorem submit_filename_structure_witness :
    ∃ sub : Submission,
      (submit_submission sampleState 1 (some ("Alice")) (some ("Report.PDF"))
          [222, 173, 190, 239] 5 2).2.store.submissions
        = sampleState.store.submissions ++ [sub] ∧
      sub.filename = (⟨(secure_filename ("Alice")).data.take 20⟩ : String) ++ ("_")
        ++ (toString 1) ++ ("_") ++ (⟨token_hex [222, 173, 190, 239]⟩ : String) ++ (".")
        ++ (if pyIn (".") (secure_filename ("Report.PDF")) = true
            then pyLower ⟨afterLastDot (secure_filename ("Report.PDF")).data⟩
            else ("dat")) ∧
      (token_hex [222, 173, 190, 239]).length = 8 :=
  submit_filename_structure sampleState 1 ("Alice") ("Report.PDF")
    [222, 173, 190, 239] 5 2
    (submit_submission sampleState 1 (some ("Alice")) (some ("Report.PDF"))
      [222, 173, 190, 239] 5 2).2
    (by decide) (by decide)

/-- Helper: `Char.ofNat` below the surrogate range keeps its code point. -/
theorem charOfNat_toNat (n : Nat) (h : n < 55296) : (Char.ofNat n).toNat = n := by
  have hv : n.isValidChar := Or.inl h
  simp only [Char.ofNat, hv, dif_pos]
  rfl

/-- Helper: uppercasing a character twice is the same as uppercasing it once. -/
theorem pyUpperChar_idem (c : Char) : pyUpperChar (pyUpperChar c) = pyUpperChar c := by
  by_cases h : 97 ≤ c.toNat ∧ c.toNat ≤ 122
  · have h1 : pyUpperChar c = Char.ofNat (c.toNat - 32) := by
      unfold pyUpperChar
      rw [if_pos h]
    have ht : (Char.ofNat (c.toNat - 32)).toNat = c.toNat - 32 :=
      charOfNat_toNat _ (by omega)
    rw [h1]
    unfold pyUpperChar
    rw [if_neg (by rw [ht]; omega)]
  · have h1 : pyUpperChar c = c := by
      unfold pyUpperChar
      rw [if_neg h]
    rw [h1, h1]

/-- Helper: uppercasing never changes whether a character is whitespace. -/
theorem isPySpace_pyUpperChar (c : Char) : isPySpace (pyUpperChar c) = isPySpace c := by
  by_cases h : 97 ≤ c.toNat ∧ c.toNat ≤ 122
  · have h1 : pyUpperChar c = Char.ofNat (c.toNat - 32) := by
      unfold pyUpperChar
      rw [if_pos h]
    have ht : (Char.ofNat (c.toNat - 32)).toNat = c.toNat - 32 :=
      charOfNat_toNat _ (by omega)
    rw [h1]
    have hl : isPySpace (Char.ofNat (c.toNat - 32)) = false := by
      simp only [isPySpace, ht, Bool.or_eq_false_iff, beq_eq_false_iff_ne, ne_eq]
      omega
    have hr : isPySpace c = false := by
      simp only [isPySpace, Bool.or_eq_false_iff, beq_eq_false_iff_ne, ne_eq]
      omega
    rw [hl, hr]
  · have h1 : pyUpperChar c = c := by
      unfold pyUpperChar
      rw [if_neg h]
    rw [h1]

/-- Helper: dropping a stable predicate twice from the front is the same as
dropping it once. -/
theorem dropWhile_idem (p : Char → Bool) (l : List Char) :
    (l.dropWhile p).dropWhile p = l.dropWhile p := by
  induction l with
  | nil => rfl
  | cons a t ih =>
    cases hpa : p a
    · simp [List.dropWhile_cons, hpa]
    · simp [List.dropWhile_cons, hpa, ih]

/-- Helper: a prefix of a list that drops nothing drops nothing either. -/
theorem dropWhile_eq_self_of_prefixed (p : Char → Bool) (l m : List Char)
    (hpre : l <+: m) (hm : m.dropWhile p = m) : l.dropWhile p = l := by
  cases l with
  | nil => rfl
  | cons a t =>
    obtain ⟨r, hr⟩ := hpre
    subst hr
    rw [List.cons_append] at hm
    cases hpa : p a
    · simp [List.dropWhile_cons, hpa]
    · exfalso
      rw [List.dropWhile_cons, if_pos (by simp [hpa])] at hm
      have hlen := congrArg List.length hm
      have hsuf2 : (t ++ r).dropWhile p <:+ (t ++ r) := List.dropWhile_suffix p
      have hle := hsuf2.length_le
      simp at hlen hle
      omega

/-- Helper: stripping both ends twice is the same as stripping once. -/
theorem stripList_idem (p : Char → Bool) (l : List Char) :
    stripList p (stripList p l) = stripList p l := by
  have hmfix : (l.dropWhile p).dropWhile p = l.dropWhile p := dropWhile_idem p l
  have hsuf : (l.dropWhile p).reverse.dropWhile p <:+ (l.dropWhile p).reverse :=
    List.dropWhile_suffix p
  have hpre : ((l.dropWhile p).reverse.dropWhile p).reverse <+: l.dropWhile p := by
    have h := List.reverse_prefix.mpr hsuf
    rwa [List.reverse_reverse] at h
  unfold stripList
  rw [dropWhile_eq_self_of_prefixed p _ (l.dropWhile p) hpre hmfix,
    List.reverse_reverse, dropWhile_idem]

/-- Helper: stripping commutes with uppercasing. -/
theorem pyStrip_pyUpper (s : String) : pyStrip (pyUpper s) = pyUpper (pyStrip s) := by
  have hcomp : (isPySpace ∘ pyUpperChar) = isPySpace := funext isPySpace_pyUpperChar
  unfold pyStrip pyUpper stripList
  congr 1
  rw [List.dropWhile_map, hcomp, ← List.map_reverse, List.dropWhile_map, hcomp,
    ← List.map_reverse]

/-- Helper: stripping twice is the same as stripping once. -/
theorem pyStrip_idem (s : String) : pyStrip (pyStrip s) = pyStrip s := by
  unfold pyStrip
  congr 1
  exact stripList_idem _ _

/-- Helper: uppercasing twice is the same as uppercasing once. -/
theorem pyUpper_idem (s : String) : pyUpper (pyUpper s) = pyUpper s := by
  unfold pyUpper
  congr 1
  rw [List.map_map]
  induction s.data with
  | nil => rfl
  | cons a t ih => simp [ih, pyUpperChar_idem]

/-- C7: the join-code lookup is invariant under letter case and surrounding
whitespace of its input — looking up any string yields the same class as
looking up its trimmed, uppercased form. -/
theorem resolveJoinCode_normalized (store : Store) (raw : String) :
    resolveJoinCode store raw = resolveJoinCode store (pyUpper (pyStrip raw)) := by
  unfold resolveJoinCode
  have key : pyUpper (pyStrip (pyUpper (pyStrip raw))) = pyUpper (pyStrip raw) := by
    rw [pyStrip_pyUpper, pyStrip_idem, pyUpper_idem]
  rw [key]

/-- Witness for C7: the class stored with generated code `"AB12CD"` is found
via the lookup `" ab12cd "`. -/
theorem resolveJoinCode_normalized_witness :
    resolveJoinCode sampleStore (" ab12cd ") = some sampleClass ∧
    resolveJoinCode sampleStore (" ab12cd ")
      = resolveJoinCode sampleStore (pyUpper (pyStrip (" ab12cd "))) :=
  ⟨by rw [resolveJoinCode_normalized sampleStore (" ab12cd ")]; decide,
   resolveJoinCode_normalized sampleStore (" ab12cd ")⟩

/-- Helper: inserting into a list permutes consing onto it. -/
theorem insertBy_perm (r : Assignment → Assignment → Bool) (x : Assignment)
    (l : List Assignment) : (insertBy r x l).Perm (x :: l) := by
  induction l with
  | nil => exact List.Perm.refl _
  | cons y ys ih =>
    unfold insertBy
    by_cases h : r x y = true
    · rw [if_pos h]
    · rw [if_neg h]
      exact (List.Perm.cons y ih).trans (List.Perm.swap x y ys)

/-- Helper: the modelled ORDER BY returns a permutation of its input. -/
theorem sortBy_perm (r : Assignment → Assignment → Bool) (l : List Assignment) :
    (sortBy r l).Perm l := by
  induction l with
  | nil => exact List.Perm.refl _
  | cons x xs ih =>
    unfold sortBy
    exact (insertBy_perm r x (sortBy r xs)).trans (List.Perm.cons x ih)

/-- Helper: inserting into a pairwise-ordered list keeps it pairwise-ordered,
for a total transitive comparator. -/
theorem insertBy_pairwise (r : Assignment → Assignment → Bool)
    (htot : ∀ a b, r a b = true ∨ r b a = true)
    (htrans : ∀ a b c, r a b = true → r b c = true → r a c = true)
    (x : Assignment) (l : List Assignment)
    (h : l.Pairwise (fun a b => r a b = true)) :
    (insertBy r x l).Pairwise (fun a b => r a b = true) := by
  induction l with
  | nil => simp [insertBy]
  | cons y ys ih =>
    rcases List.pairwise_cons.mp h with ⟨hy, hys⟩
    unfold insertBy
    by_cases hxy : r x y = true
    · rw [if_pos hxy]
      refine List.pairwise_cons.mpr ⟨?_, h⟩
      intro z hz
      rcases List.mem_cons.mp hz with h1 | h1
      · subst h1; exact hxy
      · exact htrans x y z hxy (hy z h1)
    · rw [if_neg hxy]
      have hyx : r y x = true := (htot x y).resolve_left hxy
      refine List.pairwise_cons.mpr ⟨?_, ih hys⟩
      intro z hz
      have hz2 := (insertBy_perm r x ys).mem_iff.mp hz
      rcases List.mem_cons.mp hz2 with h1 | h1
      · subst h1; exact hyx
      · exact hy z h1

/-- Helper: the modelled ORDER BY is pairwise-ordered for a total transitive
comparator. -/
theorem sortBy_pairwise (r : Assignment → Assignment → Bool)
    (htot : ∀ a b, r a b = true ∨ r b a = true)
    (htrans : ∀ a b c, r a b = true → r b c = true → r a c = true)
    (l : List Assignment) :
    (sortBy r l).Pairwise (fun a b => r a b = true) := by
  induction l with
  | nil => simp [sortBy]
  | cons x xs ih =>
    unfold sortBy
    exact insertBy_pairwise r htot htrans x _ ih

/-- Helper: the descending due-date comparator is total. -/
theorem dueGe_total (a b : Assignment) : dueGe a b = true ∨ dueGe b a = true := by
  unfold dueGe
  rcases a.due_date with _ | x <;> rcases b.due_date with _ | y <;> simp <;> omega

/-- Helper: the descending due-date comparator is transitive. -/
theorem dueGe_trans (a b c : Assignment) :
    dueGe a b = true → dueGe b c = true → dueGe a c = true := by
  unfold dueGe
  rcases a.due_date with _ | x <;> rcases b.due_date with _ | y <;>
    rcases c.due_date with _ | z <;> simp <;> omega

/-- C8: `listAssignmentsForClass` returns exactly the assignments of the given
class (as a permutation of the class filter of the table), and in descending
due-date order: whenever one returned assignment precedes another and both due
dates are non-null, the earlier-positioned one's due date is at least the
later-positioned one's. -/
theorem listAssignmentsForClass_ordered (store : Store) (class_id : Nat) :
    (listAssignmentsForClass store class_id).Perm
      (store.assignments.filter (fun a => a.class_id == class_id)) ∧
    (listAssignmentsForClass store class_id).Pairwise
      (fun a b => ∀ x y, a.due_date = some x → b.due_date = some y → y ≤ x) := by
  constructor
  · exact sortBy_perm dueGe _
  · have hp := sortBy_pairwise dueGe dueGe_total dueGe_trans
      (store.assignments.filter (fun a => a.class_id == class_id))
    refine List.Pairwise.imp ?_ hp
    intro a b hab x y hx hy
    unfold dueGe at hab
    rw [hx, hy] at hab
    simpa using hab

/-- Witness for C8: on the sample store the two assignments of class 1 come
back with the 2025-12-15-style later due date (100) before the earlier one
(50). -/
theorem listAssignmentsForClass_ordered_witness :
    (listAssignmentsForClass sampleStore 1).length
      = (sampleStore.assignments.filter (fun a => a.class_id == 1)).length ∧
    listAssignmentsForClass sampleStore 1 = [sampleAssignment, sampleAssignment2] :=
  ⟨(listAssignmentsForClass_ordered sampleStore 1).1.length_eq, by decide⟩

end LMS
